import Mathlib

/-!
Verification model of `src/library_manager.py` (Personal Library Manager).

The program keeps an in-memory list of `Book` objects and mirrors it to a
JSON file.  We embed the data model and the core operations shallowly:

* `Json` models a parsed JSON value (the content of the backing file after
  `json.load`), and Python values generally: since Python is dynamically
  typed and `Book.__init__` performs no checks, a `Book` stores five
  arbitrary values, modelled as five `Json` fields.  `mkBook` builds the
  well-typed books that the interactive `add_book` flow constructs
  (after its input-validation loops `title author genre : String`,
  `year : Int`, `read : Bool`, per the annotations on `Book.__init__`).
* Failures of Python evaluation (KeyError, TypeError, AttributeError,
  json.JSONDecodeError) are modelled with `Except PyErr`.
* The backing file is modelled by `FileState`: missing, present but not
  parseable as JSON, or present with a parsed `Json` value.  Textual
  details of `json.dump(..., indent=4)` are below this model's level of
  abstraction; a written file is represented by the `Json` value it parses
  back to.
-/

/-- A parsed JSON value; also stands for the Python value obtained from it. -/
inductive Json where
  | null
  | bool (b : Bool)
  | num (n : Int)
  | str (s : String)
  | arr (elements : List Json)
  | obj (members : List (String × Json))

mutual
/-- Python `==` on values decoded from JSON (structural equality). -/
def Json.beq : Json → Json → Bool
  | .null, .null => true
  | .bool a, .bool b => a == b
  | .num a, .num b => a == b
  | .str a, .str b => a == b
  | .arr a, .arr b => Json.beqElems a b
  | .obj a, .obj b => Json.beqMembers a b
  | _, _ => false
def Json.beqElems : List Json → List Json → Bool
  | [], [] => true
  | x :: xs, y :: ys => Json.beq x y && Json.beqElems xs ys
  | _, _ => false
def Json.beqMembers : List (String × Json) → List (String × Json) → Bool
  | [], [] => true
  | (k, v) :: xs, (l, w) :: ys => k == l && Json.beq v w && Json.beqMembers xs ys
  | _, _ => false
end

instance : BEq Json := ⟨Json.beq⟩

mutual
/-- `Json.beq` is propositional equality, so Python `==` on decoded values
is lawful equality of the model. -/
theorem Json.beq_eq : ∀ a b : Json, Json.beq a b = true ↔ a = b
  | .null, .null => by simp [Json.beq]
  | .null, .bool _ | .null, .num _ | .null, .str _ | .null, .arr _ | .null, .obj _ => by
    simp [Json.beq]
  | .bool _, .null | .bool _, .num _ | .bool _, .str _ | .bool _, .arr _ | .bool _, .obj _ => by
    simp [Json.beq]
  | .num _, .null | .num _, .bool _ | .num _, .str _ | .num _, .arr _ | .num _, .obj _ => by
    simp [Json.beq]
  | .str _, .null | .str _, .bool _ | .str _, .num _ | .str _, .arr _ | .str _, .obj _ => by
    simp [Json.beq]
  | .arr _, .null | .arr _, .bool _ | .arr _, .num _ | .arr _, .str _ | .arr _, .obj _ => by
    simp [Json.beq]
  | .obj _, .null | .obj _, .bool _ | .obj _, .num _ | .obj _, .str _ | .obj _, .arr _ => by
    simp [Json.beq]
  | .bool a, .bool b => by simp [Json.beq]
  | .num a, .num b => by simp [Json.beq]
  | .str a, .str b => by simp [Json.beq]
  | .arr a, .arr b => by
    rw [show Json.beq (.arr a) (.arr b) = Json.beqElems a b from rfl, Json.beqElems_eq a b]
    simp
  | .obj a, .obj b => by
    rw [show Json.beq (.obj a) (.obj b) = Json.beqMembers a b from rfl, Json.beqMembers_eq a b]
    simp
/-- Element-wise version of `Json.beq_eq`. -/
theorem Json.beqElems_eq : ∀ a b : List Json, Json.beqElems a b = true ↔ a = b
  | [], [] => by simp [Json.beqElems]
  | [], _ :: _ => by simp [Json.beqElems]
  | _ :: _, [] => by simp [Json.beqElems]
  | x :: xs, y :: ys => by
    rw [show Json.beqElems (x :: xs) (y :: ys) = (Json.beq x y && Json.beqElems xs ys) from rfl]
    rw [Bool.and_eq_true, Json.beq_eq x y, Json.beqElems_eq xs ys]
    simp
/-- Member-wise version of `Json.beq_eq`. -/
theorem Json.beqMembers_eq :
    ∀ a b : List (String × Json), Json.beqMembers a b = true ↔ a = b
  | [], [] => by simp [Json.beqMembers]
  | [], _ :: _ => by simp [Json.beqMembers]
  | _ :: _, [] => by simp [Json.beqMembers]
  | (k, v) :: xs, (l, w) :: ys => by
    rw [show Json.beqMembers ((k, v) :: xs) ((l, w) :: ys) =
      (k == l && Json.beq v w && Json.beqMembers xs ys) from rfl]
    rw [Bool.and_eq_true, Bool.and_eq_true, Json.beq_eq v w, Json.beqMembers_eq xs ys]
    simp [Prod.ext_iff, and_assoc]
end

instance : LawfulBEq Json where
  eq_of_beq h := (Json.beq_eq _ _).mp h
  rfl := (Json.beq_eq _ _).mpr rfl

instance : DecidableEq Json := fun a b => decidable_of_iff _ (Json.beq_eq a b)

/-- Tests whether a value is a (Python) string. -/
def Json.isStr : Json → Bool
  | .str _ => true
  | _ => false

/-- Tests whether a value is an integer. -/
def Json.isNum : Json → Bool
  | .num _ => true
  | _ => false

/-- Tests whether a value is a boolean. -/
def Json.isBool : Json → Bool
  | .bool _ => true
  | _ => false

/-- Tests whether a value is a JSON object / Python dict. -/
def Json.isObj : Json → Bool
  | .obj _ => true
  | _ => false

/-- Exceptions the modelled Python code can raise. -/
inductive PyErr where
  | keyError
  | typeError
  | attributeError
  | jsonDecodeError
deriving DecidableEq

/-- One `Book` object (`class Book`, `library_manager.py` lines 12–18).
Python stores whatever values the caller passes, so each field is a `Json`
value; `Book.wellTypedB` singles out the declared types. -/
structure Book where
  title : Json
  author : Json
  year : Json
  genre : Json
  read : Json

/-- Builds the `Book(title, author, year, genre, read)` that `add_book`
constructs from its validated inputs (source lines 89–110). -/
def mkBook (title author : String) (year : Int) (genre : String) (read : Bool) : Book :=
  ⟨.str title, .str author, .num year, .str genre, .bool read⟩

/-- Fields have the types annotated on `Book.__init__`:
`str, str, int, str, bool`. -/
def Book.wellTypedB (b : Book) : Bool :=
  b.title.isStr && b.author.isStr && b.year.isNum && b.genre.isStr && b.read.isBool

/-- Models `Book.to_dict` (source lines 20–27): a dict with exactly the five
fields, in source order. -/
def to_dict (b : Book) : Json :=
  .obj [("title", b.title), ("author", b.author), ("year", b.year),
        ("genre", b.genre), ("read", b.read)]

/-- Models Python subscription `data[key]`: on a dict, the stored value or
`KeyError`; on any non-dict value a string key raises `TypeError`. -/
def pySubscript (data : Json) (key : String) : Except PyErr Json :=
  match data with
  | .obj members =>
    match members.lookup key with
    | some v => .ok v
    | none => .error .keyError
  | _ => .error .typeError

/-- Models `Book.from_dict` (source lines 29–37): five subscriptions in the
source's keyword-argument order, then the constructor.  There is no type
coercion and no type check: whatever values are present are stored as-is. -/
def from_dict (data : Json) : Except PyErr Book := do
  let t ← pySubscript data "title"
  let a ← pySubscript data "author"
  let y ← pySubscript data "year"
  let g ← pySubscript data "genre"
  let r ← pySubscript data "read"
  pure ⟨t, a, y, g, r⟩

/-- Models Python iteration `for x in data`: lists yield elements, dicts
yield their keys, strings yield one-character strings; every other value
raises `TypeError` (not iterable). -/
def pyIterate (data : Json) : Except PyErr (List Json) :=
  match data with
  | .arr elements => .ok elements
  | .obj members => .ok (members.map (fun kv => Json.str kv.1))
  | .str s => .ok (s.data.map (fun c => Json.str (String.singleton c)))
  | _ => .error .typeError

/-- Models the comprehension at source line 69:
`[Book.from_dict(book_data) for book_data in data]` — decodes left to
right, the first exception propagating. -/
def decodeAll : List Json → Except PyErr (List Book)
  | [] => .ok []
  | d :: ds => do
    let b ← from_dict d
    let rest ← decodeAll ds
    pure (b :: rest)

/-- State of the backing file: absent, present but not parseable as JSON,
or present and parsing to a `Json` value. -/
inductive FileState where
  | missing
  | invalid
  | valid (j : Json)

/-- Models `LibraryManager.load_library` (source lines 63–75).  Returns the
resulting `self.books` paired with whether the "Error loading library file"
message was printed, or the uncaught exception.  A missing file or a caught
`json.JSONDecodeError` / `KeyError` yields an empty list; any other
exception (in particular `TypeError` from a non-iterable top level or a
non-dict record) propagates, since the `except` clause at line 71 names
only `json.JSONDecodeError` and `KeyError`. -/
def load_library (fs : FileState) : Except PyErr (List Book × Bool) :=
  match fs with
  | .missing => .ok ([], false)
  | .invalid => .ok ([], true)
  | .valid j =>
    match pyIterate j >>= decodeAll with
    | .ok books => .ok (books, false)
    | .error .jsonDecodeError => .ok ([], true)
    | .error .keyError => .ok ([], true)
    | .error e => .error e

/-- In-memory state of a `LibraryManager` together with its backing file. -/
structure LMState where
  books : List Book
  file : FileState

/-- Models the successful path of `LibraryManager.save_library` (source
lines 77–84): the file now holds the serialization of every book in
in-memory order.  An `IOError` is caught and reported, leaving the prior
file content; the claims below quantify over successful operations, so the
failure branch is not modelled further. -/
def save_library (st : LMState) : LMState :=
  { st with file := .valid (.arr (st.books.map to_dict)) }

/-- Models the core of `LibraryManager.add_book` (source lines 110–112),
after the presentation layer has collected validated field values: append
the new book, then save. -/
def add_book (st : LMState) (title author : String) (year : Int) (genre : String)
    (read : Bool) : LMState :=
  save_library { st with books := st.books ++ [mkBook title author year genre read] }

/-- Character-wise lowercasing, modelling Python's `str.lower` (the ASCII
case mapping; a structural definition so that concrete instances reduce). -/
def lowerStr (s : String) : String := ⟨s.data.map Char.toLower⟩

/-- Models Python's `value.lower()`: a string lowercases; any other value
has no `lower` attribute and raises `AttributeError`. -/
def pyLower : Json → Except PyErr String
  | .str s => .ok (lowerStr s)
  | _ => .error .attributeError

/-- Models the comprehension at source line 120:
`found_books = [book for book in self.books if book.title.lower() == title.lower()]`. -/
def foundBooks : List Book → String → Except PyErr (List Book)
  | [], _ => .ok []
  | b :: rest, title => do
    let s ← pyLower b.title
    let tail ← foundBooks rest title
    if s == lowerStr title then pure (b :: tail) else pure tail

/-- The case-insensitive title match of source line 120 as a Boolean (false
on a non-string title; `foundBooks` has already raised in that case). -/
def titleMatches (b : Book) (title : String) : Bool :=
  match b.title with
  | .str s => lowerStr s == lowerStr title
  | _ => false

/-- Removes the catalog element that is the `n`-th (0-based) title match.
`Book` defines no `__eq__`, so `self.books.remove(book_to_remove)` compares
by object identity and deletes `book_to_remove` itself — the chosen match
at its own position in the catalog. -/
def eraseNthMatch : List Book → String → Nat → List Book
  | [], _, _ => []
  | b :: rest, title, n =>
    if titleMatches b title then
      match n with
      | 0 => rest
      | m + 1 => b :: eraseNthMatch rest title m
    else b :: eraseNthMatch rest title n

/-- Outcome of the title-matching phase of `remove_book` (the spec's
`RemovalResult`). -/
inductive RemovalResult where
  | NotFound
  | Removed (b : Book)
  | Ambiguous (candidates : List Book)

/-- The spec's `removeByTitle`: the branch structure of
`LibraryManager.remove_book` (source lines 115–146) up to the point where
an ambiguous match prompts the user.  Zero matches: nothing is removed.
One match: `self.books.remove(found_books[0])` deletes the unique match
and save follows.  Several matches: the candidates are listed in catalog
order and nothing is removed yet. -/
def removeByTitle (books : List Book) (title : String) :
    Except PyErr (RemovalResult × List Book) := do
  let found ← foundBooks books title
  match found with
  | [] => pure (.NotFound, books)
  | [b] => pure (.Removed b, eraseNthMatch books title 0)
  | _ => pure (.Ambiguous found, books)

/-- The spec's `removeExact` step on the catalog: a validated 1-based
`choice` selects `found_books[choice - 1]`, which `self.books.remove`
deletes by identity (source lines 133–136). -/
def removeExact (books : List Book) (title : String) (choice : Nat) : List Book :=
  eraseNthMatch books title (choice - 1)

/-- Models `LibraryManager.remove_book` (source lines 115–146) end to end
on the store state, the user's 1-based `choice` supplied for the ambiguous
branch.  Returns the removed book (if any) and the new state.  The source
loops until the entered choice lies within `1..len(found_books)`, so an
out-of-range `choice` never reaches the removal; that still-prompting
state is modelled as no change. -/
def remove_book (st : LMState) (title : String) (choice : Nat) :
    Except PyErr (Option Book × LMState) := do
  let found ← foundBooks st.books title
  match found with
  | [] => pure (none, st)
  | [b] => pure (some b, save_library { st with books := eraseNthMatch st.books title 0 })
  | _ =>
    if h : 1 ≤ choice ∧ choice ≤ found.length then
      pure (some (found.get ⟨choice - 1, by omega⟩),
        save_library { st with books := removeExact st.books title choice })
    else pure (none, st)

/-- Tests whether `needle` is a prefix of `hay` (helper for Python's
substring containment). -/
def strStarts : List Char → List Char → Bool
  | [], _ => true
  | _ :: _, [] => false
  | c :: cs, d :: ds => c == d && strStarts cs ds

/-- Tests whether `needle` occurs contiguously in `hay`. -/
def strFind : List Char → List Char → Bool
  | needle, [] => strStarts needle []
  | needle, d :: ds => strStarts needle (d :: ds) || strFind needle ds

/-- Models Python string containment `needle in hay`. -/
def pyInStr (needle hay : String) : Bool := strFind needle.data hay.data

/-- The two search fields of `search_books` (menu choice 1 = Title,
2 = Author). -/
inductive SearchField where
  | byTitle
  | byAuthor

/-- The field a search inspects: `book.title` for choice 1, `book.author`
for choice 2. -/
def fieldOf (field : SearchField) (b : Book) : Json :=
  match field with
  | .byTitle => b.title
  | .byAuthor => b.author

/-- The comprehension at source lines 167/169: keep the books whose
selected field, lowercased, contains the (already lowercased) term. -/
def searchFilter : List Book → SearchField → String → Except PyErr (List Book)
  | [], _, _ => .ok []
  | b :: rest, field, lowered => do
    let s ← pyLower (fieldOf field b)
    let tail ← searchFilter rest field lowered
    if pyInStr lowered s then pure (b :: tail) else pure tail

/-- Models the query core of `LibraryManager.search_books` (source lines
164–169): the entered term is lowercased (line 164), then the matching
books are collected in catalog order. -/
def search_books (books : List Book) (field : SearchField) (term : String) :
    Except PyErr (List Book) :=
  searchFilter books field (lowerStr term)

/-- Models `LibraryManager.display_all_books` (source lines 178–186): the
rendered list is the catalog in stored order. -/
def display_all_books (books : List Book) : List Book := books

/-- Python truthiness `if book.read:` for values decoded from JSON. -/
def pyTruthy : Json → Bool
  | .null => false
  | .bool b => b
  | .num n => n != 0
  | .str s => s != ""
  | .arr elements => !elements.isEmpty
  | .obj members => !members.isEmpty

/-- One step of the genre tally at source lines 204–205:
`genres[book.genre] = genres.get(book.genre, 0) + 1` on an
insertion-ordered dict, modelled as an association list. -/
def bump (gs : List (Json × Nat)) (g : Json) : List (Json × Nat) :=
  match gs with
  | [] => [(g, 1)]
  | (k, c) :: rest => if k == g then (k, c + 1) :: rest else (k, c) :: bump rest g

/-- The genre tally of the whole catalog; keys appear in first-seen order
because Python dicts preserve insertion order. -/
def genreTally (books : List Book) : List (Json × Nat) :=
  books.foldl (fun gs b => bump gs b.genre) []

/-- The comparison of source line 208, `sorted(genres.items(), key=lambda
x: x[1], reverse=True)`: by count, descending. -/
def countGE (a b : Json × Nat) : Bool := decide (b.2 ≤ a.2)

/-- The printed genre sequence (source lines 203–208).  Python's `sorted`
is a stable sort also under `reverse=True`, which `List.mergeSort` with
`countGE` reproduces exactly. -/
def genreCountsOf (books : List Book) : List (Json × Nat) :=
  (genreTally books).mergeSort countGE

/-- The figures `display_statistics` prints (source lines 188–209). -/
structure Stats where
  total : Nat
  readCount : Nat
  percentRead : Rat
  genreCounts : List (Json × Nat)

/-- Models `LibraryManager.display_statistics` (source lines 188–209).
With an empty catalog it prints "No books in the library." and returns
before computing anything — `none` is that early exit, so no division
happens.  Otherwise it counts `read_books` via truthiness of `book.read`
and computes `(read_books / total_books) * 100` (an exact rational in
place of the Python float, which is finite here since `total_books ≠ 0`),
plus the genre counts. -/
def display_statistics (books : List Book) : Option Stats :=
  if books.length = 0 then none
  else
    let readBooks := (books.filter (fun b => pyTruthy b.read)).length
    some { total := books.length, readCount := readBooks,
           percentRead := ((readBooks : Rat) / (books.length : Rat)) * 100,
           genreCounts := genreCountsOf books }

/-- `search_books` as it runs on the store: it reads `self.books` and
assigns nothing, so the state passes through unchanged. -/
def search_books_op (st : LMState) (field : SearchField) (term : String) :
    Except PyErr (List Book × LMState) :=
  (search_books st.books field term).map (fun r => (r, st))

/-- `display_all_books` on the store: reads only. -/
def display_all_books_op (st : LMState) : List Book × LMState :=
  (display_all_books st.books, st)

/-- `display_statistics` on the store: reads only. -/
def display_statistics_op (st : LMState) : Option Stats × LMState :=
  (display_statistics st.books, st)

/-! ### Serialization round-trip -/

/-- Deserializing a serialized book recovers the book: the five lookups hit
the five fields just written. -/
theorem from_dict_to_dict (b : Book) : from_dict (to_dict b) = .ok b := rfl

/-- List version of `from_dict_to_dict`, as `load_library` runs it. -/
theorem decodeAll_to_dict :
    ∀ books : List Book, decodeAll (books.map to_dict) = .ok books := by
  intro books
  induction books with
  | nil => rfl
  | cons b bs ih => simp [decodeAll, from_dict_to_dict, ih]; rfl

/-- C1: round-trip persistence — saving a catalog of book records (text
title, text author, integer year, text genre, boolean read) and then
loading the written file yields the same records with the same field
values in the same order, with no load error reported. -/
theorem save_load_roundtrip (books : List Book) (fs : FileState)
    (hw : books.all Book.wellTypedB = true) :
    load_library (save_library ⟨books, fs⟩).file = .ok (books, false) := by
  simp [save_library, load_library, pyIterate, Bind.bind, Except.bind,
    decodeAll_to_dict books]

/-- C1 witness: the round-trip at a concrete two-record catalog. -/
theorem save_load_roundtrip_witness :
    (([mkBook "Dune" "A" 1965 "SF" false,
       mkBook "Hobbit" "T" 1937 "Fantasy" true] : List Book).all Book.wellTypedB = true) ∧
      load_library (save_library ⟨[mkBook "Dune" "A" 1965 "SF" false,
          mkBook "Hobbit" "T" 1937 "Fantasy" true], .missing⟩).file =
        .ok ([mkBook "Dune" "A" 1965 "SF" false,
          mkBook "Hobbit" "T" 1937 "Fantasy" true], false) :=
  ⟨by decide, save_load_roundtrip _ .missing (by decide)⟩

/-! ### Robustness of load -/

/-- Subscripting a dict either succeeds or raises `KeyError` — never
`TypeError`. -/
theorem pySubscript_obj (o : List (String × Json)) (key : String) :
    (∃ v, pySubscript (.obj o) key = .ok v) ∨
      pySubscript (.obj o) key = .error .keyError := by
  simp only [pySubscript]
  cases o.lookup key <;> simp

/-- Decoding a dict record either succeeds (whatever the value types) or
raises `KeyError` — never `TypeError`. -/
theorem from_dict_obj (o : List (String × Json)) :
    (∃ b, from_dict (.obj o) = .ok b) ∨ from_dict (.obj o) = .error .keyError := by
  rcases pySubscript_obj o "title" with ⟨t, ht⟩ | ht
  case inr => exact .inr (by simp [from_dict, ht, Bind.bind, Except.bind])
  rcases pySubscript_obj o "author" with ⟨a, ha⟩ | ha
  case inr => exact .inr (by simp [from_dict, ht, ha, Bind.bind, Except.bind])
  rcases pySubscript_obj o "year" with ⟨y, hy⟩ | hy
  case inr => exact .inr (by simp [from_dict, ht, ha, hy, Bind.bind, Except.bind])
  rcases pySubscript_obj o "genre" with ⟨g, hg⟩ | hg
  case inr => exact .inr (by simp [from_dict, ht, ha, hy, hg, Bind.bind, Except.bind])
  rcases pySubscript_obj o "read" with ⟨r, hr⟩ | hr
  case inr => exact .inr (by simp [from_dict, ht, ha, hy, hg, hr, Bind.bind, Except.bind])
  exact .inl ⟨⟨t, a, y, g, r⟩,
    by simp [from_dict, ht, ha, hy, hg, hr, Bind.bind, Except.bind, Pure.pure, Except.pure]⟩

/-- Decoding a list of dict records either succeeds or raises `KeyError`. -/
theorem decodeAll_objs (l : List Json) (h : ∀ x ∈ l, x.isObj = true) :
    (∃ bs, decodeAll l = .ok bs) ∨ decodeAll l = .error .keyError := by
  induction l with
  | nil => exact .inl ⟨[], rfl⟩
  | cons x xs ih =>
    obtain ⟨o, rfl⟩ : ∃ o, x = .obj o := by
      have := h x (by simp)
      cases x <;> simp_all [Json.isObj]
    rcases from_dict_obj o with ⟨b, hb⟩ | hb
    · rcases ih (fun y hy => h y (by simp [hy])) with ⟨bs, hbs⟩ | hbs
      · exact .inl ⟨b :: bs,
          by simp [decodeAll, hb, hbs, Bind.bind, Except.bind, Pure.pure, Except.pure]⟩
      · exact .inr (by simp [decodeAll, hb, hbs, Bind.bind, Except.bind])
    · exact .inr (by simp [decodeAll, hb, Bind.bind, Except.bind])

/-- C2 counterexample: the claim says every backing-file content — also a
non-sequence top level — degrades to an empty catalog without a crash, but
a file whose JSON content is the number `42` parses and then raises
`TypeError` in the comprehension (`int` is not iterable), which the
`except (json.JSONDecodeError, KeyError)` clause does not catch: the
exception escapes `load_library`. -/
theorem load_library_crash_counterexample :
    load_library (.valid (.num 42)) = .error .typeError := rfl

/-- C2 (amended): load() does not propagate an exception when the backing
file is missing, when its text fails to parse as JSON, or when it parses
to a sequence of dict records — a missing file or a caught parse failure /
missing key degrades to an empty catalog with at most a reported
LoadError; but records with wrong-typed field values are accepted as-is
rather than rejected, and a non-sequence top level or a non-dict record
raises an uncaught TypeError. -/
theorem load_library_no_crash :
    load_library .missing = .ok ([], false) ∧
    load_library .invalid = .ok ([], true) ∧
    ∀ l : List Json, (∀ x ∈ l, x.isObj = true) →
      (∃ bs, load_library (.valid (.arr l)) = .ok (bs, false)) ∨
        load_library (.valid (.arr l)) = .ok ([], true) := by
  refine ⟨rfl, rfl, ?_⟩
  intro l h
  rcases decodeAll_objs l h with ⟨bs, hbs⟩ | hbs
  · exact .inl ⟨bs, by simp [load_library, pyIterate, hbs, Bind.bind, Except.bind]⟩
  · exact .inr (by simp [load_library, pyIterate, hbs, Bind.bind, Except.bind])

/-- C2 witness: the amended theorem applied to a one-record file whose
record is a dict (here one missing most fields). -/
theorem load_library_no_crash_witness :
    (∀ x ∈ [Json.obj [("title", Json.str "t")]], x.isObj = true) ∧
      ((∃ bs, load_library (.valid (.arr [Json.obj [("title", Json.str "t")]])) =
          .ok (bs, false)) ∨
        load_library (.valid (.arr [Json.obj [("title", Json.str "t")]])) = .ok ([], true)) :=
  ⟨by decide, load_library_no_crash.2.2 _ (by decide)⟩

/-! ### File synchronisation after mutations -/

/-- C3: file-sync invariant — after a successful add, and after any
successful removal (single-match or ambiguous-with-choice), the backing
file holds exactly the serialization of the current in-memory catalog:
each record as a mapping of the five fields, in in-memory order. -/
theorem file_sync_after_mutation :
    (∀ (st : LMState) (title author : String) (year : Int) (genre : String) (read : Bool),
      (add_book st title author year genre read).file =
        .valid (.arr ((add_book st title author year genre read).books.map to_dict))) ∧
    ∀ (st : LMState) (title : String) (choice : Nat) (b : Book) (st' : LMState),
      remove_book st title choice = .ok (some b, st') →
        st'.file = .valid (.arr (st'.books.map to_dict)) := by
  constructor
  · intro st t a y g r; rfl
  · intro st title choice b st' h
    cases hf : foundBooks st.books title with
    | error e => simp [remove_book, hf, Bind.bind, Except.bind] at h
    | ok found =>
      rcases found with _ | ⟨x, _ | ⟨x2, rest⟩⟩ <;>
        simp only [remove_book, hf, Bind.bind, Except.bind] at h
      · simp [Pure.pure, Except.pure] at h
      · simp only [Pure.pure, Except.pure, Except.ok.injEq, Prod.mk.injEq] at h
        rw [← h.2]
        rfl
      · split at h
        · simp only [Pure.pure, Except.pure, Except.ok.injEq, Prod.mk.injEq] at h
          rw [← h.2]
          rfl
        · simp [Pure.pure, Except.pure] at h

/-- C3 witness: removing the only book of a one-book catalog leaves a file
holding the serialization of the now-empty catalog. -/
theorem file_sync_after_mutation_witness :
    remove_book ⟨[mkBook "Dune" "A" 1965 "SF" false], .missing⟩ "dune" 1 =
      .ok (some (mkBook "Dune" "A" 1965 "SF" false), ⟨[], .valid (.arr [])⟩) ∧
    (FileState.valid (.arr []) = .valid (.arr (([] : List Book).map to_dict))) :=
  ⟨rfl, file_sync_after_mutation.2 ⟨[mkBook "Dune" "A" 1965 "SF" false], .missing⟩ "dune" 1
    (mkBook "Dune" "A" 1965 "SF" false) ⟨[], .valid (.arr [])⟩ rfl⟩

/-! ### The ambiguous-removal scenario -/

/-- C5: in the catalog `[("Dune","A",1965,"SF",false), ("Dune","B",1966,
"SF",true)]`, `removeByTitle "dune"` returns `Ambiguous` with both
candidates in original order and removes nothing; choosing the second
candidate removes exactly that record — `self.books.remove` matches the
chosen object by identity, so the first \x22Dune\x22 stays — leaving the
catalog `[("Dune","A",1965,"SF",false)]` (and the file synced to it). -/
theorem removeExact_identity_scenario :
    removeByTitle [mkBook "Dune" "A" 1965 "SF" false, mkBook "Dune" "B" 1966 "SF" true]
        "dune" =
      .ok (.Ambiguous [mkBook "Dune" "A" 1965 "SF" false, mkBook "Dune" "B" 1966 "SF" true],
        [mkBook "Dune" "A" 1965 "SF" false, mkBook "Dune" "B" 1966 "SF" true]) ∧
    remove_book ⟨[mkBook "Dune" "A" 1965 "SF" false, mkBook "Dune" "B" 1966 "SF" true],
        .missing⟩ "dune" 2 =
      .ok (some (mkBook "Dune" "B" 1966 "SF" true),
        ⟨[mkBook "Dune" "A" 1965 "SF" false],
          .valid (.arr [to_dict (mkBook "Dune" "A" 1965 "SF" false)])⟩) :=
  ⟨rfl, rfl⟩

/-! ### Statistics -/

/-- C7: divide-by-zero guard — on an empty catalog `display_statistics`
takes the `total_books == 0` early exit (the explicit "No books in the
library." marker, modelled as `none`) and performs no division; on a
non-empty catalog it reports `total = len(books)` and
`percentRead = readCount / total * 100` with `total > 0`, an exact
(finite, never-NaN) rational in the model. -/
theorem statistics_divzero_guard :
    display_statistics [] = none ∧
    ∀ books : List Book, books ≠ [] →
      ∃ s, display_statistics books = some s ∧ s.total = books.length ∧ 0 < s.total ∧
        s.readCount = (books.filter (fun b => pyTruthy b.read)).length ∧
        s.percentRead = (s.readCount : Rat) / (s.total : Rat) * 100 := by
  refine ⟨rfl, ?_⟩
  intro books hb
  have hlen : ¬ books.length = 0 := by simpa using hb
  simp only [display_statistics, if_neg hlen]
  exact ⟨_, rfl, rfl, Nat.pos_of_ne_zero hlen, rfl, rfl⟩

/-- C7 witness: the guard theorem applied to a one-book catalog. -/
theorem statistics_divzero_guard_witness :
    ([mkBook "A" "B" 1 "G" true] : List Book) ≠ [] ∧
      ∃ s, display_statistics [mkBook "A" "B" 1 "G" true] = some s ∧
        s.total = ([mkBook "A" "B" 1 "G" true] : List Book).length ∧ 0 < s.total ∧
        s.readCount = (([mkBook "A" "B" 1 "G" true] : List Book).filter
          (fun b => pyTruthy b.read)).length ∧
        s.percentRead = (s.readCount : Rat) / (s.total : Rat) * 100 :=
  ⟨by simp, statistics_divzero_guard.2 _ (by simp)⟩

/-! ### Queries do not mutate -/

/-- C10: frame property — the query operations (search, list-all,
statistics) return their result with the store state, books and file
alike, exactly as it was; only add and remove mutate state or write to
storage. -/
theorem queries_leave_state_unchanged :
    (∀ (st : LMState) (field : SearchField) (term : String) (out : List Book) (st' : LMState),
      search_books_op st field term = .ok (out, st') → st' = st) ∧
    (∀ st : LMState, (display_all_books_op st).2 = st) ∧
    (∀ st : LMState, (display_statistics_op st).2 = st) := by
  refine ⟨?_, fun _ => rfl, fun _ => rfl⟩
  intro st field term out st' h
  cases hs : search_books st.books field term with
  | error e => simp [search_books_op, hs, Except.map] at h
  | ok r =>
    simp [search_books_op, hs, Except.map] at h
    exact h.2.symm

/-- C10 witness: a concrete search leaves a concrete state unchanged. -/
theorem queries_leave_state_unchanged_witness :
    search_books_op ⟨[], .missing⟩ .byTitle "x" = .ok ([], ⟨[], .missing⟩) ∧
      (⟨[], .missing⟩ : LMState) = (⟨[], .missing⟩ : LMState) :=
  ⟨rfl, queries_leave_state_unchanged.1 ⟨[], .missing⟩ .byTitle "x" [] ⟨[], .missing⟩ rfl⟩

/-! ### Deserialization contract -/

/-- A value tagged as a string is one. -/
theorem isStr_exists {j : Json} (h : j.isStr = true) : ∃ s, j = .str s := by
  cases j <;> first | exact ⟨_, rfl⟩ | simp [Json.isStr] at h

/-- C9 counterexample: the claim says `from_dict` fails with a
TypeFormatError when a present value cannot be coerced to its expected
type, but a mapping whose `year` is the string "x" (and whose remaining
values are equally mistyped) deserializes successfully — `Book.from_dict`
has no type check at all, so no such failure exists. -/
theorem from_dict_no_type_check_counterexample :
    from_dict (.obj [("title", .num 1), ("author", .num 2), ("year", .str "x"),
      ("genre", .num 4), ("read", .num 5)]) =
      .ok ⟨.num 1, .num 2, .str "x", .num 4, .num 5⟩ := rfl

/-- C9 (amended): for every input mapping, deserialization fails — with
`KeyError`, the code's `MissingFieldError` — exactly when at least one of
the five keys `title, author, year, genre, read` is absent; when all five
are present it succeeds with exactly the stored values, performing no type
coercion, no type check and no other validation. -/
theorem from_dict_contract (o : List (String × Json)) :
    ((o.lookup "title" = none ∨ o.lookup "author" = none ∨ o.lookup "year" = none ∨
      o.lookup "genre" = none ∨ o.lookup "read" = none) →
      from_dict (.obj o) = .error .keyError) ∧
    ∀ t a y g r, o.lookup "title" = some t → o.lookup "author" = some a →
      o.lookup "year" = some y → o.lookup "genre" = some g → o.lookup "read" = some r →
      from_dict (.obj o) = .ok ⟨t, a, y, g, r⟩ := by
  constructor
  · intro h
    rcases h with h | h | h | h | h
    · simp [from_dict, pySubscript, h, Bind.bind, Except.bind]
    · cases ht : o.lookup "title" <;>
        simp [from_dict, pySubscript, ht, h, Bind.bind, Except.bind]
    · cases ht : o.lookup "title" <;> cases ha : o.lookup "author" <;>
        simp [from_dict, pySubscript, ht, ha, h, Bind.bind, Except.bind]
    · cases ht : o.lookup "title" <;> cases ha : o.lookup "author" <;>
        cases hy : o.lookup "year" <;>
        simp [from_dict, pySubscript, ht, ha, hy, h, Bind.bind, Except.bind]
    · cases ht : o.lookup "title" <;> cases ha : o.lookup "author" <;>
        cases hy : o.lookup "year" <;> cases hg : o.lookup "genre" <;>
        simp [from_dict, pySubscript, ht, ha, hy, hg, h, Bind.bind, Except.bind]
  · intro t a y g r ht ha hy hg hr
    simp [from_dict, pySubscript, ht, ha, hy, hg, hr, Bind.bind, Except.bind,
      Pure.pure, Except.pure]

/-- C9 witness: the contract applied to a mapping missing `title` and to a
complete mapping. -/
theorem from_dict_contract_witness :
    from_dict (.obj [("author", Json.str "a")]) = .error .keyError ∧
      from_dict (.obj [("title", Json.str "t"), ("author", Json.str "a"),
        ("year", Json.num 1), ("genre", Json.str "g"), ("read", Json.bool true)]) =
        .ok ⟨.str "t", .str "a", .num 1, .str "g", .bool true⟩ :=
  ⟨(from_dict_contract _).1 (Or.inl rfl),
    (from_dict_contract _).2 _ _ _ _ _ rfl rfl rfl rfl rfl⟩

/-! ### Search -/

/-- The spec's search predicate: the selected field contains the term as a
case-insensitive substring (both sides lowercased). -/
def searchSpecMatch (field : SearchField) (term : String) (b : Book) : Bool :=
  match fieldOf field b with
  | .str s => pyInStr (lowerStr term) (lowerStr s)
  | _ => false

/-- Every string contains the empty string. -/
theorem strFind_nil : ∀ hay : List Char, strFind [] hay = true := by
  intro hay; cases hay <;> rfl

/-- On a well-typed catalog the search comprehension returns exactly the
filter of the containment test, in catalog order. -/
theorem searchFilter_ok (field : SearchField) (lowered : String) :
    ∀ books : List Book, books.all Book.wellTypedB = true →
      searchFilter books field lowered = .ok (books.filter (fun b =>
        match fieldOf field b with
        | .str s => pyInStr lowered (lowerStr s)
        | _ => false)) := by
  intro books hw
  induction books with
  | nil => rfl
  | cons b bs ih =>
    simp only [List.all_cons, Bool.and_eq_true] at hw
    obtain ⟨hb, hbs⟩ := hw
    simp only [Book.wellTypedB, Bool.and_eq_true] at hb
    obtain ⟨s, hs⟩ : ∃ s, fieldOf field b = .str s := by
      cases field
      · exact isStr_exists hb.1.1.1.1
      · exact isStr_exists hb.1.1.1.2
    rw [List.filter_cons]
    by_cases hm : pyInStr lowered (lowerStr s) = true
    · simp [searchFilter, hs, pyLower, ih hbs, Bind.bind, Except.bind, hm,
        Pure.pure, Except.pure]
    · simp [searchFilter, hs, pyLower, ih hbs, Bind.bind, Except.bind, hm,
        Pure.pure, Except.pure]

/-- C8: search semantics — on any catalog of well-typed records,
`search_books` returns exactly the records whose selected field contains
the term as a case-insensitive substring, in catalog order (a filter, so
stable, and an empty — not erroneous — result when nothing matches); the
empty term matches every record. -/
theorem search_books_spec (books : List Book) (field : SearchField) (term : String)
    (hw : books.all Book.wellTypedB = true) :
    search_books books field term = .ok (books.filter (searchSpecMatch field term)) ∧
      (term = "" → search_books books field term = .ok books) := by
  have main : search_books books field term =
      .ok (books.filter (searchSpecMatch field term)) := by
    rw [search_books, searchFilter_ok field (lowerStr term) books hw]
    rfl
  refine ⟨main, ?_⟩
  intro ht
  subst ht
  have hall : ∀ b ∈ books, searchSpecMatch field "" b = true := by
    intro b hbmem
    have hb : b.wellTypedB = true := List.all_eq_true.mp hw b hbmem
    simp only [Book.wellTypedB, Bool.and_eq_true] at hb
    obtain ⟨s, hs⟩ : ∃ s, fieldOf field b = .str s := by
      cases field
      · exact isStr_exists hb.1.1.1.1
      · exact isStr_exists hb.1.1.1.2
    simp only [searchSpecMatch, hs]
    exact strFind_nil _
  rw [main, List.filter_eq_self.mpr hall]

/-- C8 witness: the search theorem applied to a concrete catalog and term. -/
theorem search_books_spec_witness :
    (([mkBook "Dune" "A" 1965 "SF" false] : List Book).all Book.wellTypedB = true) ∧
      (search_books [mkBook "Dune" "A" 1965 "SF" false] .byTitle "UN" =
        .ok (([mkBook "Dune" "A" 1965 "SF" false] : List Book).filter
          (searchSpecMatch .byTitle "UN")) ∧
        ("UN" = "" → search_books [mkBook "Dune" "A" 1965 "SF" false] .byTitle "UN" =
          .ok [mkBook "Dune" "A" 1965 "SF" false])) :=
  ⟨by decide, search_books_spec _ .byTitle "UN" (by decide)⟩

/-! ### Removal by title -/

/-- On a well-typed catalog the matching comprehension of `remove_book`
returns exactly the case-insensitive title matches, in catalog order. -/
theorem foundBooks_ok (title : String) :
    ∀ books : List Book, books.all Book.wellTypedB = true →
      foundBooks books title = .ok (books.filter (fun b => titleMatches b title)) := by
  intro books hw
  induction books with
  | nil => rfl
  | cons b bs ih =>
    simp only [List.all_cons, Bool.and_eq_true] at hw
    obtain ⟨hb, hbs⟩ := hw
    simp only [Book.wellTypedB, Bool.and_eq_true] at hb
    obtain ⟨s, hs⟩ : ∃ s, b.title = .str s := isStr_exists hb.1.1.1.1
    rw [List.filter_cons]
    by_cases hm : (lowerStr s == lowerStr title) = true
    · simp [foundBooks, hs, pyLower, ih hbs, Bind.bind, Except.bind, hm,
        Pure.pure, Except.pure, titleMatches]
    · simp [foundBooks, hs, pyLower, ih hbs, Bind.bind, Except.bind, hm,
        Pure.pure, Except.pure, titleMatches]

/-- A catalog with exactly one title match splits around that match, and
erasing the first match removes precisely it. -/
theorem filter_single_erase (title : String) :
    ∀ (books : List Book) (b : Book),
      books.filter (fun x => titleMatches x title) = [b] →
      ∃ l₁ l₂, books = l₁ ++ b :: l₂ ∧ (∀ x ∈ l₁, titleMatches x title = false) ∧
        (∀ x ∈ l₂, titleMatches x title = false) ∧
        eraseNthMatch books title 0 = l₁ ++ l₂ := by
  intro books
  induction books with
  | nil => intro b h; simp at h
  | cons x xs ih =>
    intro b h
    rw [List.filter_cons] at h
    by_cases hm : titleMatches x title = true
    · rw [if_pos hm] at h
      obtain ⟨h1, h2⟩ := List.cons_eq_cons.mp h
      refine ⟨[], xs, by simp [h1], by simp, ?_, ?_⟩
      · intro y hy
        have := List.filter_eq_nil_iff.mp h2 y hy
        simpa using this
      · simp [eraseNthMatch, hm]
    · rw [if_neg (by simpa using hm)] at h
      obtain ⟨l₁, l₂, hbooks, hl₁, hl₂, herase⟩ := ih b h
      refine ⟨x :: l₁, l₂, by simp [hbooks], ?_, hl₂, ?_⟩
      · intro y hy
        rcases List.mem_cons.mp hy with rfl | hy
        · simpa using hm
        · exact hl₁ y hy
      · simp [eraseNthMatch, hm, herase]

/-- C4: removeByTitle trichotomy — on any catalog of well-typed records,
removal matches by case-insensitive title equality; zero matches returns
NotFound and removes nothing; exactly one match removes precisely that
record (the catalog splits around it) and triggers save, so the file holds
the new serialization; several matches returns Ambiguous with the
candidates in catalog order and removes nothing. -/
theorem removeByTitle_trichotomy (books : List Book) (title : String)
    (hw : books.all Book.wellTypedB = true) :
    (books.filter (fun b => titleMatches b title) = [] →
      removeByTitle books title = .ok (.NotFound, books)) ∧
    (∀ b, books.filter (fun b => titleMatches b title) = [b] →
      ∃ l₁ l₂, books = l₁ ++ b :: l₂ ∧
        (∀ x ∈ l₁, titleMatches x title = false) ∧
        (∀ x ∈ l₂, titleMatches x title = false) ∧
        removeByTitle books title = .ok (.Removed b, l₁ ++ l₂) ∧
        ∀ (fs : FileState) (choice : Nat),
          remove_book ⟨books, fs⟩ title choice =
            .ok (some b, ⟨l₁ ++ l₂, .valid (.arr ((l₁ ++ l₂).map to_dict))⟩)) ∧
    (∀ b₁ b₂ bs, books.filter (fun b => titleMatches b title) = b₁ :: b₂ :: bs →
      removeByTitle books title = .ok (.Ambiguous (b₁ :: b₂ :: bs), books)) := by
  have hf := foundBooks_ok title books hw
  refine ⟨?_, ?_, ?_⟩
  · intro h
    rw [h] at hf
    simp [removeByTitle, hf, Bind.bind, Except.bind, Pure.pure, Except.pure]
  · intro b h
    obtain ⟨l₁, l₂, hb, h1, h2, he⟩ := filter_single_erase title books b h
    rw [h] at hf
    refine ⟨l₁, l₂, hb, h1, h2, ?_, ?_⟩
    · simp [removeByTitle, hf, Bind.bind, Except.bind, Pure.pure, Except.pure, he]
    · intro fs choice
      simp [remove_book, hf, Bind.bind, Except.bind, Pure.pure, Except.pure, he,
        save_library]
  · intro b₁ b₂ bs h
    rw [h] at hf
    simp [removeByTitle, hf, Bind.bind, Except.bind, Pure.pure, Except.pure]

/-- C4 witness: the single-match branch at a one-book catalog, queried
with a different-case title. -/
theorem removeByTitle_trichotomy_witness :
    (([mkBook "Dune" "A" 1965 "SF" false] : List Book).all Book.wellTypedB = true) ∧
      ∃ l₁ l₂,
        [mkBook "Dune" "A" 1965 "SF" false] = l₁ ++ mkBook "Dune" "A" 1965 "SF" false :: l₂ ∧
        (∀ x ∈ l₁, titleMatches x "dune" = false) ∧
        (∀ x ∈ l₂, titleMatches x "dune" = false) ∧
        removeByTitle [mkBook "Dune" "A" 1965 "SF" false] "dune" =
          .ok (.Removed (mkBook "Dune" "A" 1965 "SF" false), l₁ ++ l₂) ∧
        ∀ (fs : FileState) (choice : Nat),
          remove_book ⟨[mkBook "Dune" "A" 1965 "SF" false], fs⟩ "dune" choice =
            .ok (some (mkBook "Dune" "A" 1965 "SF" false),
              ⟨l₁ ++ l₂, .valid (.arr ((l₁ ++ l₂).map to_dict))⟩) :=
  ⟨by decide, (removeByTitle_trichotomy _ "dune" (by decide)).2.1 _ rfl⟩

/-! ### Genre statistics -/

/-- First occurrences in order of the values of a list that are not in
`seen`: the spec's first-seen key order (Python dicts iterate in insertion
order). -/
def firstSeenAux (seen : List Json) : List Json → List Json
  | [] => []
  | g :: gs => if g ∈ seen then firstSeenAux seen gs else g :: firstSeenAux (g :: seen) gs

/-- The count stored at a key of a tally, 0 when absent (the reading
counterpart of `genres.get(g, 0)`). -/
def tallyGet : List (Json × Nat) → Json → Nat
  | [], _ => 0
  | (k, c) :: rest, g => if k == g then c else tallyGet rest g

/-- Unfolding of `tallyGet` on a cons cell, with the key test as an
equality. -/
theorem tallyGet_cons (q : Json) (c : Nat) (rest : List (Json × Nat)) (k : Json) :
    tallyGet ((q, c) :: rest) k = if q = k then c else tallyGet rest k := by
  simp [tallyGet, beq_iff_eq]

/-- Unfolding of `bump` on a cons cell, with the key test as an equality. -/
theorem bump_cons (q : Json) (c : Nat) (rest : List (Json × Nat)) (g : Json) :
    bump ((q, c) :: rest) g = if q = g then (q, c + 1) :: rest else (q, c) :: bump rest g := by
  simp [bump, beq_iff_eq]

/-- One `bump` adds exactly one to the bumped key's count and leaves every
other count unchanged. -/
theorem tallyGet_bump (acc : List (Json × Nat)) (g k : Json) :
    tallyGet (bump acc g) k = tallyGet acc k + (if k = g then 1 else 0) := by
  induction acc with
  | nil =>
    rw [show bump [] g = [(g, 1)] from rfl, tallyGet_cons]
    rw [show tallyGet [] k = 0 from rfl]
    by_cases h : g = k
    · rw [if_pos h, if_pos h.symm]
    · rw [if_neg h, if_neg (fun hh => h hh.symm)]
  | cons p rest ih =>
    obtain ⟨q, c⟩ := p
    rw [bump_cons, tallyGet_cons]
    by_cases hq : q = g
    · rw [if_pos hq, tallyGet_cons]
      by_cases hk : q = k
      · rw [if_pos hk, if_pos hk, if_pos (hk.symm.trans hq)]
      · rw [if_neg hk, if_neg hk, if_neg (fun hh => hk (hq.trans hh.symm))]
        exact (Nat.add_zero _).symm
    · rw [if_neg hq, tallyGet_cons]
      by_cases hk : q = k
      · rw [if_pos hk, if_pos hk, if_neg (fun hh => hq (hk.trans hh))]
        exact (Nat.add_zero _).symm
      · rw [if_neg hk, if_neg hk, ih]

/-- `bump` keeps existing keys in place and appends a new key at the end,
just as assignment into an insertion-ordered dict does. -/
theorem bump_keys (acc : List (Json × Nat)) (g : Json) :
    (bump acc g).map Prod.fst =
      if g ∈ acc.map Prod.fst then acc.map Prod.fst else acc.map Prod.fst ++ [g] := by
  induction acc with
  | nil => simp [bump]
  | cons p rest ih =>
    obtain ⟨q, c⟩ := p
    rw [bump_cons]
    by_cases hq : q = g
    · subst hq
      simp
    · rw [if_neg hq, List.map_cons, List.map_cons, ih]
      by_cases hmem : g ∈ rest.map Prod.fst
      · rw [if_pos hmem,
          if_pos (show g ∈ q :: rest.map Prod.fst from List.mem_cons_of_mem _ hmem)]
      · rw [if_neg hmem, if_neg (show g ∉ q :: rest.map Prod.fst from by
          simp only [List.mem_cons, hmem, or_false]
          exact fun hh => hq hh.symm)]
        rfl

/-- `firstSeenAux` only consults `seen` through membership. -/
theorem firstSeenAux_congr (s₁ s₂ : List Json) (hs : ∀ x, x ∈ s₁ ↔ x ∈ s₂) :
    ∀ gs : List Json, firstSeenAux s₁ gs = firstSeenAux s₂ gs := by
  intro gs
  induction gs generalizing s₁ s₂ with
  | nil => rfl
  | cons g gs ih =>
    simp only [firstSeenAux]
    by_cases hg : g ∈ s₁
    · rw [if_pos hg, if_pos ((hs g).mp hg)]
      exact ih _ _ hs
    · rw [if_neg hg, if_neg (fun hh => hg ((hs g).mpr hh))]
      refine congrArg _ (ih _ _ ?_)
      intro x
      simp [hs x]

/-- The genre-tally loop: keys come out in first-seen order and every
value produces exactly one count for its key. -/
theorem foldl_bump_spec :
    ∀ (gs : List Json) (acc : List (Json × Nat)),
      ((gs.foldl bump acc).map Prod.fst =
        acc.map Prod.fst ++ firstSeenAux (acc.map Prod.fst) gs) ∧
      ∀ k, tallyGet (gs.foldl bump acc) k = tallyGet acc k + gs.count k := by
  intro gs
  induction gs with
  | nil => intro acc; simp [firstSeenAux, tallyGet]
  | cons g gs ih =>
    intro acc
    obtain ⟨ihk, ihv⟩ := ih (bump acc g)
    constructor
    · rw [List.foldl_cons, ihk, bump_keys]
      by_cases hg : g ∈ acc.map Prod.fst
      · rw [if_pos hg]
        simp [firstSeenAux, hg]
      · rw [if_neg hg]
        simp only [firstSeenAux, hg, if_neg, List.append_assoc, List.singleton_append]
        refine congrArg _ (congrArg _ ?_)
        refine firstSeenAux_congr _ _ ?_ gs
        intro x
        simp [or_comm]
    · intro k
      rw [List.foldl_cons, ihv, tallyGet_bump, List.count_cons]
      by_cases hk : k = g
      · subst hk
        simp
        omega
      · have h1 : (k == g) = false := beq_eq_false_iff_ne.mpr hk
        simp [h1, hk]
        exact fun hh => hk hh.symm

/-- The descending-count comparison is transitive. -/
theorem countGE_trans : ∀ a b c : Json × Nat,
    countGE a b = true → countGE b c = true → countGE a c = true := by
  intro a b c hab hbc
  simp only [countGE, decide_eq_true_eq] at *
  omega

/-- The descending-count comparison is total. -/
theorem countGE_total : ∀ a b : Json × Nat, (countGE a b || countGE b a) = true := by
  intro a b
  simp only [countGE, Bool.or_eq_true, decide_eq_true_eq]
  omega

/-- Stability of the sort at line 208: among entries of any one count, the
sorted output preserves the tally's (first-seen) order. -/
theorem genreCounts_stable (tally : List (Json × Nat)) (c : Nat) :
    (tally.mergeSort countGE).filter (fun p => p.2 == c) =
      tally.filter (fun p => p.2 == c) := by
  have hpw : (tally.filter (fun p => p.2 == c)).Pairwise
      (fun a b => countGE a b = true) := by
    refine List.pairwise_of_forall_mem_list ?_
    intro a ha b hb
    have ha2 := (List.mem_filter.mp ha).2
    have hb2 := (List.mem_filter.mp hb).2
    simp only [beq_iff_eq] at ha2 hb2
    simp [countGE, ha2, hb2]
  have hsub : (tally.filter (fun p => p.2 == c)).Sublist tally := List.filter_sublist tally
  have h1 : (tally.filter (fun p => p.2 == c)).Sublist (tally.mergeSort countGE) :=
    List.sublist_mergeSort countGE_trans countGE_total hpw hsub
  have h2 : ((tally.mergeSort countGE).filter (fun p => p.2 == c)).Perm
      (tally.filter (fun p => p.2 == c)) :=
    (List.mergeSort_perm tally countGE).filter _
  have h3 : (tally.filter (fun p => p.2 == c)).Sublist
      ((tally.mergeSort countGE).filter (fun p => p.2 == c)) := by
    have h4 := h1.filter (fun p => p.2 == c)
    simpa using h4
  exact (h3.eq_of_length h2.length_eq.symm).symm

/-- The spec's tie-break example: genres in stored order
`[SF, Fantasy, SF, Fantasy]`. -/
def exampleCatalog : List Book :=
  [⟨.str "t1", .str "a1", .num 1, .str "SF", .bool false⟩,
   ⟨.str "t2", .str "a2", .num 2, .str "Fantasy", .bool false⟩,
   ⟨.str "t3", .str "a3", .num 3, .str "SF", .bool false⟩,
   ⟨.str "t4", .str "a4", .num 4, .str "Fantasy", .bool false⟩]

/-- C6: genreCounts — the tally gives each record's genre exactly one
count, its keys in the order each genre is first seen scanning the
catalog; the printed sequence is a permutation of that tally, sorted by
descending count, and among equal counts it preserves the tally's
first-seen order (Python's `sorted` is stable, modelled by a stable merge
sort); in particular genres `[SF, Fantasy, SF, Fantasy]` yield
`[(SF, 2), (Fantasy, 2)]`. -/
theorem genreCounts_spec (books : List Book) (hw : books.all Book.wellTypedB = true) :
    ((genreTally books).map Prod.fst =
      firstSeenAux [] (books.map (fun b => b.genre))) ∧
    (∀ g, tallyGet (genreTally books) g = (books.map (fun b => b.genre)).count g) ∧
    (genreCountsOf books).Perm (genreTally books) ∧
    (genreCountsOf books).Pairwise (fun p q => q.2 ≤ p.2) ∧
    (∀ c, (genreCountsOf books).filter (fun p => p.2 == c) =
      (genreTally books).filter (fun p => p.2 == c)) ∧
    genreCountsOf exampleCatalog = [(.str "SF", 2), (.str "Fantasy", 2)] := by
  have htally : genreTally books = (books.map (fun b => b.genre)).foldl bump [] := by
    rw [genreTally, List.foldl_map]
  obtain ⟨hkeys, hvals⟩ := foldl_bump_spec (books.map (fun b => b.genre)) []
  refine ⟨?_, ?_, ?_, ?_, ?_, ?_⟩
  · rw [htally, hkeys]
    rfl
  · intro g
    rw [htally, hvals g]
    exact Nat.zero_add _
  · exact List.mergeSort_perm _ _
  · have hs := List.sorted_mergeSort countGE_trans countGE_total (genreTally books)
    exact hs.imp (fun h => by simpa [countGE] using h)
  · intro c
    exact genreCounts_stable (genreTally books) c
  · rw [genreCountsOf,
      show genreTally exampleCatalog = [(Json.str "SF", 2), (Json.str "Fantasy", 2)] from rfl]
    exact List.mergeSort_of_sorted (by simp [countGE])

/-- C6 witness: the genre-counts theorem applied to the tie-break example
catalog. -/
theorem genreCounts_spec_witness :
    (exampleCatalog.all Book.wellTypedB = true) ∧
      (((genreTally exampleCatalog).map Prod.fst =
        firstSeenAux [] (exampleCatalog.map (fun b => b.genre))) ∧
      (∀ g, tallyGet (genreTally exampleCatalog) g =
        (exampleCatalog.map (fun b => b.genre)).count g) ∧
      (genreCountsOf exampleCatalog).Perm (genreTally exampleCatalog) ∧
      (genreCountsOf exampleCatalog).Pairwise (fun p q => q.2 ≤ p.2) ∧
      (∀ c, (genreCountsOf exampleCatalog).filter (fun p => p.2 == c) =
        (genreTally exampleCatalog).filter (fun p => p.2 == c)) ∧
      genreCountsOf exampleCatalog = [(.str "SF", 2), (.str "Fantasy", 2)]) :=
  ⟨by decide, genreCounts_spec exampleCatalog (by decide)⟩
